import Mathlib

/-!
Shallow embedding of the form-builder's field editing and ordering engine
(src/app/components/AddFieldButton.tsx, FormField.tsx) together with proofs
about its type-change state machine, option editor, reorder protocol, drag
state and rich-text synchronization.

Modelling conventions:
* Opaque string identifiers (uuidv4 outputs) are modelled as natural numbers
  drawn from a counter `gen`: calling the generator returns the current
  counter value and bumps it, so successive ids are distinct.
* TypeScript `options?: Option[]` is `Option (List FieldOption)`; JavaScript
  truthiness of an array value (`prev.options` is truthy even for `[]`) is
  `Option.isSome`, while the guard `!prev.options || prev.options.length === 0`
  is `hasNoOptions`.
* The contentEditable editing surface is modelled as a DOM fragment
  (`Html`, a list of nodes); reading `innerHTML` yields the fragment itself
  and reading `textContent` yields the concatenation of its text nodes.
-/

namespace FormBuilder

/-- The `FieldType` union from FormField.tsx (lines 6-13). The `section`
variant is named `sec` because `section` is a Lean keyword. -/
inductive FieldType where
  | multiple_choice
  | dropdown
  | free_text
  | checkbox
  | sec
  | image
  | ranking
deriving DecidableEq, Repr

/-- The `Option = {id, value}` record from FormField.tsx (lines 15-18),
with the opaque string id modelled as a `Nat`. Named `FieldOption` because
`Option` is taken by Lean. -/
structure FieldOption where
  id : Nat
  value : String
deriving DecidableEq, Repr

/-- A DOM node of the contentEditable surface / of stored HTML. -/
inductive HtmlNode where
  | textNode (s : String)
  | elem (tag : String) (children : List HtmlNode)

/-- A DOM fragment: what `innerHTML` of the editing surface denotes. -/
abbrev Html := List HtmlNode

mutual
/-- `textContent` of a single DOM node: concatenation of all text descendants. -/
def textContentNode : HtmlNode → String
  | .textNode s => s
  | .elem _ children => textContentList children
/-- `textContent` of a DOM fragment. -/
def textContentList : List HtmlNode → String
  | [] => ""
  | n :: rest => textContentNode n ++ textContentList rest
end

/-- The `FormFieldType` record from FormField.tsx (lines 20-29).
`formattedQuestion` stores the HTML fragment (the TS string field holds its
serialization). -/
structure FormFieldType where
  id : Nat
  type : FieldType
  question : String
  formattedQuestion : Option Html
  required : Bool
  options : Option (List FieldOption)
  description : Option String
  imageUrl : Option String

/-- `["multiple_choice", "dropdown", "checkbox", "ranking"].includes(type)`
(AddFieldButton.tsx line 203; also the `needsOptions` test at line 460). -/
def optionBearing : FieldType → Bool
  | .multiple_choice | .dropdown | .checkbox | .ranking => true
  | _ => false

/-- The guard `!prev.options || prev.options.length === 0`
(AddFieldButton.tsx line 204). -/
def hasNoOptions : Option (List FieldOption) → Bool
  | none => true
  | some l => l.isEmpty

/-- `["section", "image"].includes(type)` (AddFieldButton.tsx lines 313, 461). -/
def isSpecialType : FieldType → Bool
  | .sec | .image => true
  | _ => false

/-- `handleTypeChange` (AddFieldButton.tsx lines 199-239): the field type
state machine. Takes the requested type, the previous field and the id
generator counter; returns the next field and generator counter. The branch
order mirrors the source: option-bearing target with no options, then
`section` with a (truthy, possibly empty) options array, then `image`, then
the default. `prev.imageUrl || ""` maps both an absent and an empty url to
`""`, i.e. `Option.getD`. -/
def handleTypeChange (ty : FieldType) (prev : FormFieldType) (gen : Nat) :
    FormFieldType × Nat :=
  if optionBearing ty && hasNoOptions prev.options then
    ({ prev with
        type := ty,
        options := some [⟨gen, "Option 1"⟩, ⟨gen + 1, "Option 2"⟩] }, gen + 2)
  else if ty = FieldType.sec && prev.options.isSome then
    ({ prev with type := ty, options := some [], question := "Section Title" }, gen)
  else if ty = FieldType.image then
    ({ prev with
        type := ty,
        question := "Image Question",
        imageUrl := some (prev.imageUrl.getD "") }, gen)
  else
    ({ prev with type := ty }, gen)

/-- `handleToggleRequired` (AddFieldButton.tsx lines 311-318): early return
for section/image, otherwise flip the stored flag. -/
def handleToggleRequired (f : FormFieldType) : FormFieldType :=
  if isSpecialType f.type then f
  else { f with required := !f.required }

/-- The required state observable in the editor UI: the required toggle is
rendered only under the `!isSpecialType` guard (AddFieldButton.tsx line 649),
so a section/image field presents as not required whatever the stored flag;
otherwise the toggle shows `editedField.required` (line 652). -/
def readRequired (f : FormFieldType) : Bool :=
  if isSpecialType f.type then false else f.required

/-! ### Option editor operations and live mirroring

Each option-mutating handler of the `FieldEditor` updates `editedField`
(the session's working copy) and, under a condition, pushes the updated
field to the parent through `onFieldChange` (the Field Collection's live
copy of the field). `EditState` carries both copies plus the id-generator
counter; a handler that calls `onFieldChange upd` is modelled as setting
`live := upd`. -/

/-- The session's working copy (`editedField`), the Field Collection's live
copy of the same field (what `onFieldChange` overwrites), and the id
generator counter. -/
structure EditState where
  session : FormFieldType
  live : FormFieldType
  gen : Nat

/-- The mirroring guard shared by `handleOptionChange`, `handleAddOption`,
`handleAddOtherOption` and `handleDeleteOption`
(e.g. AddFieldButton.tsx lines 330-332): `onFieldChange` is invoked only
when `prev.type === "ranking"`. -/
def mirrorIfRanking (prevType : FieldType) (upd live : FormFieldType) :
    FormFieldType :=
  if prevType = FieldType.ranking then upd else live

/-- `handleOptionChange` (AddFieldButton.tsx lines 320-336): rewrite the
value of the option whose id matches; mirror to the live copy only for
ranking fields. -/
def handleOptionChange (oid : Nat) (value : String) (st : EditState) : EditState :=
  let upd : FormFieldType :=
    { st.session with
        options := st.session.options.map fun l =>
          l.map fun opt => if opt.id = oid then { opt with value := value } else opt }
  { st with session := upd, live := mirrorIfRanking st.session.type upd st.live }

/-- `handleAddOption` (AddFieldButton.tsx lines 338-372): append the typed
value when nonempty after trimming, else append a positional placeholder
`"Option N"` with `N = (options?.length || 0) + 1`; mirror only for ranking. -/
def handleAddOption (newOption : String) (st : EditState) : EditState :=
  let newOpt : FieldOption :=
    if newOption.trim ≠ "" then ⟨st.gen, newOption⟩
    else ⟨st.gen, "Option " ++ toString ((st.session.options.getD []).length + 1)⟩
  let upd : FormFieldType :=
    { st.session with options := some (st.session.options.getD [] ++ [newOpt]) }
  { session := upd,
    live := mirrorIfRanking st.session.type upd st.live,
    gen := st.gen + 1 }

/-- `handleAddOtherOption` (AddFieldButton.tsx lines 374-389): append
`{freshId, "Other"}` unconditionally; mirror only for ranking. -/
def handleAddOtherOption (st : EditState) : EditState :=
  let upd : FormFieldType :=
    { st.session with
        options := some (st.session.options.getD [] ++ [⟨st.gen, "Other"⟩]) }
  { session := upd,
    live := mirrorIfRanking st.session.type upd st.live,
    gen := st.gen + 1 }

/-- `handleDeleteOption` (AddFieldButton.tsx lines 391-405): drop the option
whose id matches; mirror only for ranking. -/
def handleDeleteOption (oid : Nat) (st : EditState) : EditState :=
  let upd : FormFieldType :=
    { st.session with
        options := st.session.options.map fun l => l.filter fun opt => opt.id ≠ oid }
  { st with session := upd, live := mirrorIfRanking st.session.type upd st.live }

/-! ### Reorder protocol -/

/-- The splice pair shared by both drop handlers
(FormField.tsx lines 216-218 and AddFieldButton.tsx lines 822-824):
`splice(d, 1)` removes the element at `d` and `splice(j, 0, moved)` inserts
it at `j` of the already-shortened list. The handlers invoke it with the
render indices of existing rows, so `d` is always in bounds; an
out-of-range `d` (which the DOM cannot produce) is modelled as the
identity. -/
def reorderList {α : Type} (l : List α) (d j : Nat) : List α :=
  match l[d]? with
  | none => l
  | some moved => List.insertIdx j moved (l.eraseIdx d)

/-- Ephemeral drag state: `draggedOptionIndex` / `dropTargetOptionIndex`
(FormField.tsx lines 62-63, AddFieldButton.tsx lines 146-147). -/
structure DragState where
  draggedIndex : Option Nat
  dropTargetIndex : Option Nat
deriving DecidableEq, Repr

/-- The cleared drag state (both indices none). -/
def DragState.reset : DragState := ⟨none, none⟩

/-- The drag events a sequence can emit. `dragEnd` always fires at the end
of an HTML5 drag, after any `drop`. -/
inductive DragEvent where
  | dragStart (i : Nat)
  | dragOver (i : Nat)
  | dragLeave
  | drop (i : Nat)
  | dragEnd
deriving DecidableEq, Repr

/-- `handleRankingOptionDrop` (FormField.tsx lines 199-233): abort when no
active drag or dropping on the dragged row (resetting both indices), abort
when the field has no options, otherwise reorder, emit the updated field
through `onFieldChange`, and reset both indices. The second component is
the `onFieldChange` payload, `none` when the callback is not invoked. -/
def handleRankingOptionDrop (field : FormFieldType) (s : DragState)
    (dropIndex : Nat) : DragState × Option FormFieldType :=
  match s.draggedIndex with
  | none => (DragState.reset, none)
  | some d =>
    if d = dropIndex then (DragState.reset, none)
    else
      match field.options with
      | none => (DragState.reset, none)
      | some opts =>
          (DragState.reset,
           some { field with options := some (reorderList opts d dropIndex) })

/-- The drag-state transition of the option rows in the read-only
`FormField` view: `handleRankingOptionDragStart` (line 138),
`handleRankingOptionDragOver` (lines 183-193, clearing the target when no
active drag or hovering the dragged row), `handleRankingOptionDragLeave`
(lines 195-197) and the drag-state part of `handleRankingOptionDrop`
(lines 199-233, always resetting both). The option grips (e.g. lines
413-419) attach no `onDragEnd` handler, so `dragEnd` leaves the state
unchanged. -/
def formFieldDragStep (s : DragState) : DragEvent → DragState
  | .dragStart i => { s with draggedIndex := some i }
  | .dragOver i =>
      match s.draggedIndex with
      | none => { s with dropTargetIndex := none }
      | some d =>
          if d = i then { s with dropTargetIndex := none }
          else { s with dropTargetIndex := some i }
  | .dragLeave => { s with dropTargetIndex := none }
  | .drop _ => DragState.reset
  | .dragEnd => s

/-- The drag-state transition of the option rows in the `FieldEditor`
(AddFieldButton.tsx): `onDragStart` (line 884), `onDragOver` (lines
804-811, setting the target only when a different row is hovered — there is
no else branch clearing it), `onDragLeave` (lines 812-816), the drag-state
part of `onDrop` (lines 817-845, resetting both only on the successful
branch — an aborted drop changes nothing), and `onDragEnd` (lines 914-917,
resetting both). -/
def editorDragStep (s : DragState) : DragEvent → DragState
  | .dragStart i => { s with draggedIndex := some i }
  | .dragOver i =>
      match s.draggedIndex with
      | none => s
      | some d => if d ≠ i then { s with dropTargetIndex := some i } else s
  | .dragLeave => { s with dropTargetIndex := none }
  | .drop i =>
      match s.draggedIndex with
      | none => s
      | some d => if d ≠ i then DragState.reset else s
  | .dragEnd => DragState.reset

/-- Iterate a drag-state transition over a sequence of events. -/
def runDrag (step : DragState → DragEvent → DragState) (s : DragState)
    (evs : List DragEvent) : DragState :=
  evs.foldl step s

/-- The state-updating part of the `FieldEditor` option `onDrop` closure
(AddFieldButton.tsx lines 817-845): when a drag is active and targets a
different row, reorder `editedField.options` (the closure reads
`editedField.options!`; the rows it is attached to exist only when options
are present, so an absent list is modelled as `[]`), store the updated
field in the session and push it to `onFieldChange` unconditionally —
unlike the four option handlers there is no ranking check here. Aborted
drops change nothing. -/
def editorOptionDrop (st : EditState) (s : DragState) (i : Nat) :
    EditState × DragState :=
  match s.draggedIndex with
  | none => (st, s)
  | some d =>
    if d ≠ i then
      let upd : FormFieldType :=
        { st.session with
            options := some (reorderList (st.session.options.getD []) d i) }
      ({ st with session := upd, live := upd }, DragState.reset)
    else (st, s)

/-! ### Rich-text synchronization -/

/-- `handleEditorChange` (AddFieldButton.tsx lines 264-276): on every input
event, store the surface's raw `innerHTML` into `formattedQuestion` and its
`textContent` into `question`. -/
def handleEditorChange (surface : Html) (f : FormFieldType) : FormFieldType :=
  { f with
      formattedQuestion := some surface,
      question := textContentList surface }

/-- `handleFormat` (AddFieldButton.tsx lines 242-262): `applyFormatting`
(an external collaborator, document.execCommand) first rewrites the surface
to some new fragment; the handler then stores the surface's raw `innerHTML`
and `textContent` exactly as `handleEditorChange` does. `surfaceAfter` is
the surface content after the command ran. -/
def handleFormat (surfaceAfter : Html) (f : FormFieldType) : FormFieldType :=
  { f with
      formattedQuestion := some surfaceAfter,
      question := textContentList surfaceAfter }

/-- `handleSave` (AddFieldButton.tsx lines 407-420): store the surface's raw
`innerHTML`; for `question`, `textContent || editedField.question` keeps the
previous question when the surface's text is empty; for `description`,
`descriptionRef.current?.value || editedField.description` keeps the
previous description when the textarea is absent or empty. -/
def handleSave (surface : Html) (descriptionValue : Option String)
    (f : FormFieldType) : FormFieldType :=
  { f with
      formattedQuestion := some surface,
      question :=
        if textContentList surface = "" then f.question
        else textContentList surface,
      description :=
        match descriptionValue with
        | none => f.description
        | some v => if v = "" then f.description else some v }

/-- The synchronization invariant of §3/§4.5: whenever `formattedQuestion`
is present, `question` is its plain-text extraction. -/
def questionSynced (f : FormFieldType) : Prop :=
  ∀ h : Html, f.formattedQuestion = some h → f.question = textContentList h

/-- Modelled from the spec: `sanitizeHtml` lives in
src/app/utils/richTextUtils.ts, which is not part of the source tree (only
its callers are). Per §4.5/§6 it restricts HTML to an allow-list of
formatting and basic structural tags, stripping any other markup; a
disallowed element (such as `script`) is removed together with its content
so that script injection cannot survive a round-trip. -/
def allowedTags : List String :=
  ["b", "strong", "i", "em", "u", "s", "strike", "br", "p", "div", "span"]

mutual
/-- Modelled from the spec: sanitize one node (see `allowedTags`). -/
def sanitizeNode : HtmlNode → List HtmlNode
  | .textNode s => [.textNode s]
  | .elem tag children =>
      if tag ∈ allowedTags then [.elem tag (sanitizeList children)]
      else []
/-- Modelled from the spec: sanitize a fragment node by node. -/
def sanitizeList : List HtmlNode → List HtmlNode
  | [] => []
  | n :: rest => sanitizeNode n ++ sanitizeList rest
end

/-- `renderQuestion` (FormField.tsx lines 236-257), restricted to the HTML
it injects: the guard `field.formattedQuestion ?` is JS truthiness on the
stored string, which is false both when the field is absent and when it
holds the empty string — the serialization of the empty fragment `[]`, so
the guard is `isSome` and nonemptiness of the fragment. A truthy
`formattedQuestion` is rendered through `sanitizeHtml`; otherwise the
plain question text is rendered. -/
def renderQuestionHtml (f : FormFieldType) : Html :=
  match f.formattedQuestion with
  | some h => if h.isEmpty then [.textNode f.question] else sanitizeList h
  | none => [.textNode f.question]

/-! ### Sample fields used as concrete inputs -/

/-- A two-element option list. -/
def sampleOptions : List FieldOption := [⟨0, "A"⟩, ⟨1, "B"⟩]

/-- A checkbox field holding `sampleOptions`. -/
def checkboxField : FormFieldType :=
  { id := 100, type := .checkbox, question := "Q", formattedQuestion := none,
    required := false, options := some sampleOptions, description := none,
    imageUrl := none }

/-- A free-text field with no options list. -/
def freeTextField : FormFieldType :=
  { id := 101, type := .free_text, question := "Q", formattedQuestion := none,
    required := false, options := none, description := none, imageUrl := none }

/-- An image field whose question has been edited away from the default. -/
def imageField : FormFieldType :=
  { id := 102, type := .image, question := "My picture",
    formattedQuestion := none, required := true, options := none,
    description := none, imageUrl := some "http" }

/-- A section field (stored required flag deliberately true). -/
def sectionField : FormFieldType :=
  { id := 103, type := .sec, question := "Part 1", formattedQuestion := none,
    required := true, options := none, description := none, imageUrl := none }

/-- A ranking field over four options A, B, C, D. -/
def abcdField : FormFieldType :=
  { id := 104, type := .ranking, question := "Rank",
    formattedQuestion := none, required := false,
    options := some [⟨0, "A"⟩, ⟨1, "B"⟩, ⟨2, "C"⟩, ⟨3, "D"⟩],
    description := none, imageUrl := none }

/-! ### Helper lemmas on the splice pair -/

/-- Restoring the element removed by `splice(d, 1)` at the head permutes
back to the original list. -/
theorem cons_eraseIdx_perm {α : Type} :
    ∀ (l : List α) (d : Nat) (x : α), l[d]? = some x →
      List.Perm (x :: l.eraseIdx d) l := by
  intro l
  induction l with
  | nil => intro d x h; simp at h
  | cons a t ih =>
    intro d x h
    cases d with
    | zero =>
      rw [List.getElem?_cons_zero, Option.some.injEq] at h
      cases h
      exact List.Perm.refl _
    | succ d =>
      rw [List.getElem?_cons_succ] at h
      have hperm : List.Perm (x :: t.eraseIdx d) t := ih d x h
      have hswap : List.Perm (x :: a :: t.eraseIdx d) (a :: x :: t.eraseIdx d) :=
        List.Perm.swap a x _
      exact hswap.trans (List.Perm.cons a hperm)

/-- `splice(j, 0, x)` at an in-range position permutes to consing `x`. -/
theorem insertIdx_perm_cons {α : Type} :
    ∀ (j : Nat) (l : List α) (x : α), j ≤ l.length →
      List.Perm (List.insertIdx j x l) (x :: l) := by
  intro j
  induction j with
  | zero => intro l x _; rw [List.insertIdx_zero]
  | succ j ih =>
    intro l x h
    cases l with
    | nil => simp at h
    | cons a t =>
      rw [List.insertIdx_succ_cons]
      have h1 : List.Perm (a :: List.insertIdx j x t) (a :: x :: t) :=
        List.Perm.cons a (ih t x (Nat.le_of_succ_le_succ h))
      have h2 : List.Perm (a :: x :: t) (x :: a :: t) := List.Perm.swap x a t
      exact h1.trans h2

/-- The splice pair of both drop handlers yields a permutation of the input
when both indices are in range. -/
theorem reorderList_perm {α : Type} (l : List α) (d j : Nat)
    (hd : d < l.length) (hj : j < l.length) :
    List.Perm (reorderList l d j) l := by
  have hx : l[d]? = some l[d] := List.getElem?_eq_getElem hd
  unfold reorderList
  rw [hx]
  have hlen : (l.eraseIdx d).length + 1 = l.length :=
    List.length_eraseIdx_add_one hd
  have hj' : j ≤ (l.eraseIdx d).length := by omega
  have h1 : List.Perm (List.insertIdx j l[d] (l.eraseIdx d))
      (l[d] :: l.eraseIdx d) :=
    insertIdx_perm_cons j _ _ hj'
  exact h1.trans (cons_eraseIdx_perm l d _ hx)

/-! ### Claims about the type-change state machine -/

/-- Claim C1 (counterexample): the claim says options are present after a
type change iff the new type is option-bearing, and in particular that a
field with options transitioned into free_text keeps no options. In the
code the `free_text` transition falls through to `return { ...prev, type }`,
which preserves the option list: changing `checkboxField` (two options) to
free_text leaves the options present although free_text is not
option-bearing. -/
theorem c1_presence_counterexample :
    optionBearing FieldType.free_text = false ∧
    (handleTypeChange FieldType.free_text checkboxField 10).1.options.isSome = true := by
  decide

/-- Claim C1 (amended): after a type change the options list is present
whenever the new type is option-bearing; a `section` target preserves the
presence of the input's list (emptying it when present); `free_text` and
`image` targets leave the option list untouched, so options can stay
present for a non-option-bearing type. -/
theorem c1_presence_amended (ty : FieldType) (f : FormFieldType) (gen : Nat) :
    (optionBearing ty = true →
      (handleTypeChange ty f gen).1.options.isSome = true) ∧
    (ty = FieldType.sec →
      (handleTypeChange ty f gen).1.options.isSome = f.options.isSome) ∧
    (ty = FieldType.free_text ∨ ty = FieldType.image →
      (handleTypeChange ty f gen).1.options = f.options) := by
  refine ⟨?_, ?_, ?_⟩
  · intro h
    by_cases hno : hasNoOptions f.options = true
    · simp [handleTypeChange, h, hno]
    · have h2 : ty ≠ FieldType.sec := by
        rintro rfl; simp [optionBearing] at h
      have h3 : ty ≠ FieldType.image := by
        rintro rfl; simp [optionBearing] at h
      cases hopt : f.options with
      | none => exact absurd (by simp [hasNoOptions, hopt]) hno
      | some l =>
        by_cases hl : hasNoOptions (some l) = true
        · simp [handleTypeChange, h, hopt, hl]
        · simp [handleTypeChange, h, hopt, hl, h2, h3]
  · rintro rfl
    cases hopt : f.options with
    | none => simp [handleTypeChange, optionBearing, hasNoOptions, hopt]
    | some l =>
      cases l with
      | nil => simp [handleTypeChange, optionBearing, hasNoOptions, hopt]
      | cons a t => simp [handleTypeChange, optionBearing, hasNoOptions, hopt]
  · rintro (rfl | rfl)
    · by_cases hno : hasNoOptions f.options = true
      · simp [handleTypeChange, optionBearing, hno]
      · simp [handleTypeChange, optionBearing, hno]
    · by_cases hno : hasNoOptions f.options = true
      · simp [handleTypeChange, optionBearing, hno]
      · simp [handleTypeChange, optionBearing, hno]

/-- Witness for `c1_presence_amended` at concrete inputs: a checkbox target
on an optionless field creates options; a section target on a field with
options keeps presence; a free_text target preserves the list. -/
theorem c1_presence_amended_witness :
    (handleTypeChange FieldType.checkbox freeTextField 0).1.options.isSome = true ∧
    (handleTypeChange FieldType.sec checkboxField 0).1.options.isSome =
      checkboxField.options.isSome ∧
    (handleTypeChange FieldType.free_text checkboxField 0).1.options =
      checkboxField.options :=
  ⟨(c1_presence_amended FieldType.checkbox freeTextField 0).1 rfl,
   (c1_presence_amended FieldType.sec checkboxField 0).2.1 rfl,
   (c1_presence_amended FieldType.free_text checkboxField 0).2.2 (Or.inl rfl)⟩

/-- Claim C2: changing a field whose options list is absent or empty to any
option-bearing type yields exactly the two default options, valued
"Option 1" and "Option 2" in that order, carrying the generator's next two
ids, which are distinct. -/
theorem c2_default_options (ty : FieldType) (f : FormFieldType) (gen : Nat)
    (hb : optionBearing ty = true) (hno : hasNoOptions f.options = true) :
    (handleTypeChange ty f gen).1.options =
      some [⟨gen, "Option 1"⟩, ⟨gen + 1, "Option 2"⟩] ∧
    gen ≠ gen + 1 := by
  constructor
  · simp [handleTypeChange, hb, hno]
  · omega

/-- Witness for `c2_default_options`: a free-text field with no options,
switched to multiple_choice with the generator at 5. -/
theorem c2_default_options_witness :
    (handleTypeChange FieldType.multiple_choice freeTextField 5).1.options =
      some [⟨5, "Option 1"⟩, ⟨5 + 1, "Option 2"⟩] ∧
    (5 : Nat) ≠ 5 + 1 :=
  c2_default_options FieldType.multiple_choice freeTextField 5 rfl rfl

/-- Claim C7 (counterexample): re-applying the current type is claimed to be
a no-op, but applying `image` to an image field resets its question to
"Image Question": on `imageField` (question "My picture") the transition
changes the field. -/
theorem c7_idempotence_counterexample :
    (handleTypeChange imageField.type imageField 0).1 ≠ imageField ∧
    (handleTypeChange imageField.type imageField 0).1.question = "Image Question" ∧
    imageField.question = "My picture" :=
  ⟨fun h => absurd (congrArg FormFieldType.question h) (by decide), rfl, rfl⟩

/-- Claim C7 (amended): re-applying the current type is a no-op when the
type is option-bearing with a nonempty options list, or free_text, or
section without an options list; it is not a no-op when an option-bearing
field has an absent/empty list (two fresh options are created), when the
type is image (question reset to "Image Question", imageUrl defaulted), or
when a section field still carries a present options list (question reset
to "Section Title"). -/
theorem c7_idempotence_amended (f : FormFieldType) (gen : Nat)
    (h : (optionBearing f.type = true ∧ hasNoOptions f.options = false) ∨
         f.type = FieldType.free_text ∨
         (f.type = FieldType.sec ∧ f.options = none)) :
    handleTypeChange f.type f gen = (f, gen) := by
  rcases h with ⟨hb, hno⟩ | hft | ⟨hsec, hnone⟩
  · have h2 : f.type ≠ FieldType.sec := by
      intro e; rw [e] at hb; simp [optionBearing] at hb
    have h3 : f.type ≠ FieldType.image := by
      intro e; rw [e] at hb; simp [optionBearing] at hb
    simp [handleTypeChange, hno, h2, h3]
  · simp [handleTypeChange, hft, optionBearing]
    rw [← hft]
  · simp [handleTypeChange, hsec, hnone, optionBearing, hasNoOptions]
    rw [← hsec, ← hnone]

/-- Witness for `c7_idempotence_amended`: re-applying checkbox to
`checkboxField`, whose options list is nonempty, changes nothing. -/
theorem c7_idempotence_amended_witness :
    handleTypeChange checkboxField.type checkboxField 0 = (checkboxField, 0) :=
  c7_idempotence_amended checkboxField 0 (Or.inl ⟨rfl, rfl⟩)

/-- Claim C8: for section/image fields the observable required state is
false regardless of the stored flag and `handleToggleRequired` leaves the
field completely unchanged; for every other type the toggle flips the
stored flag. -/
theorem c8_toggle_required :
    (∀ f : FormFieldType, isSpecialType f.type = true →
      readRequired f = false ∧ handleToggleRequired f = f) ∧
    (∀ f : FormFieldType, isSpecialType f.type = false →
      handleToggleRequired f = { f with required := !f.required }) := by
  constructor
  · intro f h
    exact ⟨by simp [readRequired, h], by simp [handleToggleRequired, h]⟩
  · intro f h
    simp [handleToggleRequired, h]

/-- Witness for `c8_toggle_required`: `sectionField` stores
`required = true` yet reads as not required and the toggle is inert;
toggling `freeTextField` flips its flag. -/
theorem c8_toggle_required_witness :
    (readRequired sectionField = false ∧
     handleToggleRequired sectionField = sectionField) ∧
    handleToggleRequired freeTextField =
      { freeTextField with required := !freeTextField.required } :=
  ⟨c8_toggle_required.1 sectionField rfl, c8_toggle_required.2 freeTextField rfl⟩

/-! ### Claims about the reorder protocol -/

/-- Claim C3: a completed drop removes the dragged element and reinserts it
at the drop index of the already-shortened list; concretely on [A,B,C,D],
dragging index 0 to index 2 yields [B,C,A,D] and dragging index 3 to
index 1 yields [A,D,B,C]. -/
theorem c3_drop_semantics :
    (∀ (field : FormFieldType) (opts : List FieldOption) (t : Option Nat)
        (d j : Nat) (x : FieldOption),
        field.options = some opts → opts[d]? = some x → d ≠ j →
        handleRankingOptionDrop field ⟨some d, t⟩ j =
          (DragState.reset,
           some { field with
                    options := some (List.insertIdx j x (opts.eraseIdx d)) })) ∧
    (handleRankingOptionDrop abcdField ⟨some 0, none⟩ 2).2 =
      some { abcdField with
               options := some [⟨1, "B"⟩, ⟨2, "C"⟩, ⟨0, "A"⟩, ⟨3, "D"⟩] } ∧
    (handleRankingOptionDrop abcdField ⟨some 3, none⟩ 1).2 =
      some { abcdField with
               options := some [⟨0, "A"⟩, ⟨3, "D"⟩, ⟨1, "B"⟩, ⟨2, "C"⟩] } := by
  refine ⟨?_, rfl, rfl⟩
  intro field opts t d j x hopts hget hne
  simp [handleRankingOptionDrop, hopts, hne, reorderList, hget]

/-- Witness for `c3_drop_semantics`: dragging B (index 1) to index 3 of
`abcdField` through the drop handler. -/
theorem c3_drop_semantics_witness :
    handleRankingOptionDrop abcdField ⟨some 1, none⟩ 3 =
      (DragState.reset,
       some { abcdField with
                options := some (List.insertIdx 3 (⟨1, "B"⟩ : FieldOption)
                  (([⟨0, "A"⟩, ⟨1, "B"⟩, ⟨2, "C"⟩, ⟨3, "D"⟩] :
                      List FieldOption).eraseIdx 1)) }) :=
  c3_drop_semantics.1 abcdField [⟨0, "A"⟩, ⟨1, "B"⟩, ⟨2, "C"⟩, ⟨3, "D"⟩]
    none 1 3 ⟨1, "B"⟩ rfl rfl (by decide)

/-- Claim C10: a completed in-bounds drop with distinct indices permutes
the option list — same length, exactly the same options in a different
order — in the FormField drop handler and likewise in the FieldEditor drop
closure. -/
theorem c10_reorder_perm (field : FormFieldType) (opts : List FieldOption)
    (t : Option Nat) (d j : Nat)
    (hopts : field.options = some opts)
    (hd : d < opts.length) (hj : j < opts.length) (hne : d ≠ j) :
    (∃ upd, (handleRankingOptionDrop field ⟨some d, t⟩ j).2 = some upd ∧
       ∃ l, upd.options = some l ∧ List.Perm l opts ∧ l.length = opts.length) ∧
    (∀ st : EditState, st.session = field →
       ∃ l, (editorOptionDrop st ⟨some d, t⟩ j).1.session.options = some l ∧
         List.Perm l opts ∧ l.length = opts.length) := by
  have hperm : List.Perm (reorderList opts d j) opts :=
    reorderList_perm opts d j hd hj
  constructor
  · refine ⟨{ field with options := some (reorderList opts d j) }, ?_, ?_⟩
    · simp [handleRankingOptionDrop, hopts, hne]
    · exact ⟨reorderList opts d j, rfl, hperm, hperm.length_eq⟩
  · intro st hst
    refine ⟨reorderList opts d j, ?_, hperm, hperm.length_eq⟩
    simp [editorOptionDrop, hne, hst, hopts]

/-- Witness for `c10_reorder_perm`: dropping option 2 of `abcdField` onto
index 0. -/
theorem c10_reorder_perm_witness :
    (∃ upd, (handleRankingOptionDrop abcdField ⟨some 2, none⟩ 0).2 = some upd ∧
       ∃ l, upd.options = some l ∧
         List.Perm l [⟨0, "A"⟩, ⟨1, "B"⟩, ⟨2, "C"⟩, ⟨3, "D"⟩] ∧
         l.length = ([⟨0, "A"⟩, ⟨1, "B"⟩, ⟨2, "C"⟩, ⟨3, "D"⟩] :
           List FieldOption).length) ∧
    (∀ st : EditState, st.session = abcdField →
       ∃ l, (editorOptionDrop st ⟨some 2, none⟩ 0).1.session.options = some l ∧
         List.Perm l [⟨0, "A"⟩, ⟨1, "B"⟩, ⟨2, "C"⟩, ⟨3, "D"⟩] ∧
         l.length = ([⟨0, "A"⟩, ⟨1, "B"⟩, ⟨2, "C"⟩, ⟨3, "D"⟩] :
           List FieldOption).length) :=
  c10_reorder_perm abcdField [⟨0, "A"⟩, ⟨1, "B"⟩, ⟨2, "C"⟩, ⟨3, "D"⟩]
    none 2 0 rfl (by decide) (by decide) (by decide)

/-! ### Claims about live mirroring of option mutations -/

/-- Claim C6 (counterexample): the claim says the Field Collection's live
copy is updated immediately iff the field's type is ranking, but the
FieldEditor's option drop closure calls `onFieldChange` without any ranking
check: reordering the options of a checkbox field overwrites the live copy
before any commit. -/
theorem c6_mirroring_counterexample :
    checkboxField.type ≠ FieldType.ranking ∧
    (editorOptionDrop ⟨checkboxField, checkboxField, 50⟩
        ⟨some 0, none⟩ 1).1.live ≠ checkboxField ∧
    (editorOptionDrop ⟨checkboxField, checkboxField, 50⟩
        ⟨some 0, none⟩ 1).1.live.options = some [⟨1, "B"⟩, ⟨0, "A"⟩] := by
  refine ⟨by decide, ?_, rfl⟩
  intro h
  exact absurd (congrArg FormFieldType.options h) (by decide)

/-- Claim C6 (amended): updating, adding, adding "Other" and deleting an
option mirror the session's new field to the live copy exactly when the
field's type is ranking; the drop reorder, by contrast, mirrors
unconditionally, for every option-bearing type. -/
theorem c6_mirroring_amended (st : EditState) (oid : Nat) (v newOption : String)
    (t : Option Nat) (d i : Nat) (hne : d ≠ i) :
    (st.session.type = FieldType.ranking →
        (handleOptionChange oid v st).live = (handleOptionChange oid v st).session ∧
        (handleAddOption newOption st).live = (handleAddOption newOption st).session ∧
        (handleAddOtherOption st).live = (handleAddOtherOption st).session ∧
        (handleDeleteOption oid st).live = (handleDeleteOption oid st).session) ∧
    (st.session.type ≠ FieldType.ranking →
        (handleOptionChange oid v st).live = st.live ∧
        (handleAddOption newOption st).live = st.live ∧
        (handleAddOtherOption st).live = st.live ∧
        (handleDeleteOption oid st).live = st.live) ∧
    (editorOptionDrop st ⟨some d, t⟩ i).1.live =
      (editorOptionDrop st ⟨some d, t⟩ i).1.session := by
  refine ⟨fun h => ?_, fun h => ?_, ?_⟩
  · simp [handleOptionChange, handleAddOption, handleAddOtherOption,
      handleDeleteOption, mirrorIfRanking, h]
  · simp [handleOptionChange, handleAddOption, handleAddOtherOption,
      handleDeleteOption, mirrorIfRanking, h]
  · simp [editorOptionDrop, hne]

/-- Witness for `c6_mirroring_amended`: an "Other" append on a ranking
field mirrors, the same append on a checkbox field leaves the live copy
alone, and a drop reorder on the checkbox field mirrors anyway. -/
theorem c6_mirroring_amended_witness :
    (handleAddOtherOption ⟨abcdField, abcdField, 50⟩).live =
      (handleAddOtherOption ⟨abcdField, abcdField, 50⟩).session ∧
    (handleAddOtherOption ⟨checkboxField, checkboxField, 50⟩).live =
      checkboxField ∧
    (editorOptionDrop ⟨checkboxField, checkboxField, 50⟩ ⟨some 0, none⟩ 1).1.live =
      (editorOptionDrop ⟨checkboxField, checkboxField, 50⟩ ⟨some 0, none⟩ 1).1.session :=
  ⟨((c6_mirroring_amended ⟨abcdField, abcdField, 50⟩ 0 "v" "x" none 0 1
      (by decide)).1 rfl).2.2.1,
   ((c6_mirroring_amended ⟨checkboxField, checkboxField, 50⟩ 0 "v" "x" none 0 1
      (by decide)).2.1 (by decide)).2.2.1,
   (c6_mirroring_amended ⟨checkboxField, checkboxField, 50⟩ 0 "v" "x" none 0 1
      (by decide)).2.2⟩

/-! ### Claims about drag state reset -/

/-- Claim C9 (counterexample): the claim says both drag indices reset when
a drag ends for any reason, but the option grips of the read-only FormField
view attach no onDragEnd handler: a drag started there that ends without a
drop leaves draggedIndex set. -/
theorem c9_drag_reset_counterexample :
    runDrag formFieldDragStep DragState.reset
      [DragEvent.dragStart 0, DragEvent.dragEnd] = ⟨some 0, none⟩ ∧
    (⟨some 0, none⟩ : DragState) ≠ DragState.reset := by
  decide

/-- Claim C9 (amended): in the FieldEditor every drag sequence ends reset,
because its onDragEnd (which always fires last) clears both indices; in the
FormField view every drop — successful or aborted — resets both indices,
but a dragEnd without a drop leaves the drag state untouched. -/
theorem c9_drag_reset_amended :
    (∀ (s : DragState) (evs : List DragEvent),
        runDrag editorDragStep s (evs ++ [DragEvent.dragEnd]) = DragState.reset) ∧
    (∀ (f : FormFieldType) (s : DragState) (i : Nat),
        (handleRankingOptionDrop f s i).1 = DragState.reset) ∧
    (∀ s : DragState, formFieldDragStep s DragEvent.dragEnd = s) := by
  refine ⟨?_, ?_, fun s => rfl⟩
  · intro s evs
    simp [runDrag, List.foldl_append, editorDragStep]
  · intro f s i
    rcases s with ⟨d, t⟩
    cases d with
    | none => rfl
    | some d =>
      by_cases h : d = i
      · simp [handleRankingOptionDrop, h]
      · cases hopt : f.options <;>
          simp [handleRankingOptionDrop, h, hopt]

/-! ### Claims about rich-text synchronization -/

/-- Claim C4 (counterexample): Save computes
`question: editorRef.current.textContent || editedField.question`, so when
the surface's text content is empty the previous question is kept while an
empty formattedQuestion is stored: the two representations go out of sync
in the saved field. -/
theorem c4_sync_counterexample :
    (handleSave [] none checkboxField).question = "Q" ∧
    (handleSave [] none checkboxField).formattedQuestion = some [] ∧
    textContentList [] = "" ∧
    ¬ questionSynced (handleSave [] none checkboxField) := by
  refine ⟨rfl, rfl, rfl, ?_⟩
  intro h
  exact absurd (h [] rfl) (by decide)

/-- Claim C4 (amended): after every editor content change and every
formatting command the question equals the plain-text extraction of the
formattedQuestion; Save preserves the invariant whenever the surface's text
content is nonempty (or the prior question was empty), but falls back to
the prior question — desynchronizing — when the surface text is empty. -/
theorem c4_sync_amended (surface : Html) (f : FormFieldType)
    (dv : Option String) :
    questionSynced (handleEditorChange surface f) ∧
    questionSynced (handleFormat surface f) ∧
    (textContentList surface ≠ "" → questionSynced (handleSave surface dv f)) ∧
    (f.question = "" → questionSynced (handleSave surface dv f)) := by
  refine ⟨?_, ?_, ?_, ?_⟩
  · intro h hh
    injection hh with hh
    subst hh
    rfl
  · intro h hh
    injection hh with hh
    subst hh
    rfl
  · intro hne h hh
    injection hh with hh
    subst hh
    simp [handleSave, hne]
  · intro hq h hh
    injection hh with hh
    subst hh
    by_cases htc : textContentList surface = "" <;> simp [handleSave, htc, hq]

/-- Witness for `c4_sync_amended`: a surface holding the text "Hi" over
`checkboxField`, also saved. -/
theorem c4_sync_amended_witness :
    questionSynced (handleEditorChange [HtmlNode.textNode "Hi"] checkboxField) ∧
    questionSynced (handleSave [HtmlNode.textNode "Hi"] none checkboxField) :=
  ⟨(c4_sync_amended [HtmlNode.textNode "Hi"] checkboxField none).1,
   (c4_sync_amended [HtmlNode.textNode "Hi"] checkboxField none).2.2.1
     (by simp [textContentList, textContentNode])⟩

/-- A surface fragment holding a script element, as a script-injection
probe. -/
def scriptFragment : Html := [HtmlNode.elem "script" [HtmlNode.textNode "alert(1)"]]

/-- Claim C5 (counterexample): the editor-change, format and save paths all
store the surface's raw innerHTML into formattedQuestion; storing a surface
that contains a script element keeps it verbatim, which differs from the
sanitizer's output on the same surface. -/
theorem c5_sanitize_counterexample :
    (handleEditorChange scriptFragment checkboxField).formattedQuestion =
      some scriptFragment ∧
    sanitizeList scriptFragment = [] ∧
    scriptFragment ≠ ([] : Html) := by
  refine ⟨rfl, ?_, ?_⟩
  · simp [scriptFragment, sanitizeList, sanitizeNode, allowedTags]
  · intro h
    exact absurd (congrArg List.length h) (by decide)

/-- Claim C5 (amended): every persist path stores the surface's raw
innerHTML into formattedQuestion unchanged; sanitization is instead applied
when a stored nonempty formattedQuestion is rendered (and when the editor
is seeded), while a stored empty HTML string is falsy and makes the
renderer fall back to the plain question text. -/
theorem c5_sanitize_amended (surface : Html) (f : FormFieldType)
    (dv : Option String) :
    (handleEditorChange surface f).formattedQuestion = some surface ∧
    (handleFormat surface f).formattedQuestion = some surface ∧
    (handleSave surface dv f).formattedQuestion = some surface ∧
    (∀ g : FormFieldType, g.formattedQuestion = some surface → surface ≠ [] →
        renderQuestionHtml g = sanitizeList surface) ∧
    (∀ g : FormFieldType, g.formattedQuestion = some [] →
        renderQuestionHtml g = [HtmlNode.textNode g.question]) := by
  refine ⟨rfl, rfl, rfl, ?_, ?_⟩
  · intro g hg hne
    cases surface with
    | nil => exact absurd rfl hne
    | cons a t => simp [renderQuestionHtml, hg]
  · intro g hg
    simp [renderQuestionHtml, hg]

/-- Witness for `c5_sanitize_amended`: rendering the field that stored the
raw script fragment yields the sanitizer's output, while rendering a field
saved from an empty surface yields its plain question text. -/
theorem c5_sanitize_amended_witness :
    renderQuestionHtml (handleEditorChange scriptFragment checkboxField) =
      sanitizeList scriptFragment ∧
    renderQuestionHtml (handleSave [] none checkboxField) =
      [HtmlNode.textNode (handleSave [] none checkboxField).question] :=
  ⟨(c5_sanitize_amended scriptFragment checkboxField none).2.2.2.1
     (handleEditorChange scriptFragment checkboxField) rfl
     (by simp [scriptFragment]),
   (c5_sanitize_amended [] checkboxField none).2.2.2.2
     (handleSave [] none checkboxField) rfl⟩

end FormBuilder
